import Mathlib

/-!
Shallow embedding of the client-side data-join logic of the Colorado
legislative district map script (src/main.js and its two near-identical
variants).

Modelling conventions:
* JavaScript strings are modelled as lists of characters (`JsStr`);
  `String.prototype.toLowerCase`, `trim`, `split`, `includes` and the
  JS prefix test are modelled by the corresponding structural functions
  below (ASCII case mapping, which covers every string the script uses).
* JavaScript numbers are modelled by exact rationals (`ℚ`).
* JavaScript objects used as dictionaries are modelled as functions from
  string keys to `Option` values; property assignment is pointwise update.
-/

namespace CoLeg

/-- JS strings, modelled as their character sequences. -/
abbrev JsStr := List Char

/-- Characters of a Lean string literal; used to transcribe the JS string
literals of the script. -/
def s2l (s : String) : JsStr := s.data

/-- Model of `String.prototype.toLowerCase` (ASCII range). -/
def toLowerJS (s : JsStr) : JsStr := s.map Char.toLower

/-- Model of `p.startsWith(pre)` from `src/main.js` (the party test). -/
def startsWithJS (s pre : JsStr) : Bool := pre.isPrefixOf s

/-- Model of the JS idiom `x || dflt` for a possibly-undefined string `x`:
`undefined` and the empty string are falsy. -/
def orStr (x : Option JsStr) (dflt : JsStr) : JsStr :=
  match x with
  | none => dflt
  | some s => if s = [] then dflt else s

/-- Party color mapping from `src/main.js` lines 73-79:
`!party` yields light yellow, a lowercased party starting with `"rep"`
yields light red, `"dem"` light blue, anything else light yellow. -/
def partyColor (party : Option JsStr) : JsStr :=
  match party with
  | none => s2l "#fff59d"
  | some s =>
    if s = [] then s2l "#fff59d"
    else
      let p := toLowerJS s
      if startsWithJS p (s2l "rep") then s2l "#ff9999"
      else if startsWithJS p (s2l "dem") then s2l "#90caf9"
      else s2l "#fff59d"

/-- Model of `name.includes(',')`. -/
def includesChar (c : Char) (s : JsStr) : Bool := s.contains c

/-- JS whitespace characters relevant to `String.prototype.trim` on the
script's data (ASCII whitespace). -/
def isJsWhitespace (c : Char) : Bool :=
  c = ' ' || c = '\t' || c = '\n' || c = '\r'

/-- Model of `String.prototype.trim`: drop whitespace from both ends. -/
def trimJS (s : JsStr) : JsStr :=
  ((s.dropWhile isJsWhitespace).reverse.dropWhile isJsWhitespace).reverse

/-- Model of `String.prototype.split(sep)` for a one-character separator:
`splitOnChar c s` never returns an empty list, and returns the maximal
separator-free segments of `s` in order (so `[] ↦ [[]]`, matching
`"".split(',') == [""]`). -/
def splitOnChar (c : Char) : JsStr → List JsStr
  | [] => [[]]
  | ch :: rest =>
    let r := splitOnChar c rest
    if ch = c then [] :: r
    else (ch :: r.headD []) :: r.tail

/-- The `'Last, First' ↦ 'First Last'` normalization of
`src/main.js` lines 168-172:
`if (displayName.includes(',')) { const [last, first] =
displayName.split(',').map(s => s.trim()); displayName =
`${first} ${last}`; }`. -/
def displayName (name : JsStr) : JsStr :=
  if includesChar ',' name then
    let parts := (splitOnChar ',' name).map trimJS
    let last := parts.headD []
    let first := parts.tail.headD []
    first ++ s2l " " ++ last
  else name

/-- A GeoJSON coordinate pair, in GeoJSON input order `(lng, lat)`. -/
abbrev Coord := ℚ × ℚ

/-- A coordinate ring of a GeoJSON polygon. -/
abbrev LinearRing := List Coord

/-- A GeoJSON geometry as dispatched on by `getPolygonCentroid`
(`src/main.js` lines 20-42): a `Polygon` carries its rings, a
`MultiPolygon` carries a list of sub-polygons (each a list of rings), and
`other` stands for any geometry whose `type` string is neither
`'Polygon'` nor `'MultiPolygon'`. -/
inductive Geometry where
  | polygon (coordinates : List LinearRing)
  | multiPolygon (coordinates : List (List LinearRing))
  | other (type : JsStr)

/-- The `MultiPolygon` branch of `getPolygonCentroid`
(`src/main.js` lines 24-32): scan the sub-polygons in order, keeping the
outer ring (`ring[0]`, modelled by `headD []`) whenever its vertex count
strictly exceeds the running maximum (`maxLen`, initially `0`). -/
def multiStep (acc : Nat × LinearRing) (poly : List LinearRing) :
    Nat × LinearRing :=
  let outer := poly.headD []
  if acc.1 < outer.length then (outer.length, outer) else acc

/-- The `MultiPolygon` selection loop of `getPolygonCentroid`
(`src/main.js` lines 24-32), starting from `maxLen = 0`, `coords = []`. -/
def selectMultiCoords (polys : List (List LinearRing)) : LinearRing :=
  (polys.foldl multiStep (0, [])).2

/-- The accumulation loop of `getPolygonCentroid` (`src/main.js` lines
36-41): `x` sums the longitudes, `y` the latitudes, and the result is
`[y / n, x / n]`, i.e. `(lat, lng)`. -/
def centroidOfRing (coords : LinearRing) : ℚ × ℚ :=
  let n : ℚ := (coords.length : ℚ)
  let s := coords.foldl (fun (acc : ℚ × ℚ) c => (acc.1 + c.1, acc.2 + c.2)) (0, 0)
  (s.2 / n, s.1 / n)

/-- `getPolygonCentroid` from `src/main.js` lines 20-42: a `Polygon` uses
its first ring, a `MultiPolygon` the outer ring of the sub-polygon with
the most vertices, any other geometry yields `null` (`none`). -/
def getPolygonCentroid (geometry : Geometry) : Option (ℚ × ℚ) :=
  match geometry with
  | .polygon cs => some (centroidOfRing (cs.headD []))
  | .multiPolygon ps => some (centroidOfRing (selectMultiCoords ps))
  | .other _ => none

/-- The county-label anchor of the overlay builders (`src/main.js` lines
96-108 and the identical block in the single-map variant):
`getPolygonCentroid(feature.geometry) || layer.getBounds().getCenter()`.
The bounding-box center comes from the map library and is passed in as an
opaque value. -/
def countyLabelAnchor (geometry : Geometry) (boundsCenter : ℚ × ℚ) : ℚ × ℚ :=
  match getPolygonCentroid geometry with
  | some c => c
  | none => boundsCenter

/-- Spec-side description of the MultiPolygon selection: the greatest
outer-ring vertex count among the sub-polygons. -/
def maxOuterCount : List (List LinearRing) → Nat
  | [] => 0
  | p :: ps => Nat.max (p.headD []).length (maxOuterCount ps)

/-- Spec-side description of the MultiPolygon selection, following the
spec's words: the outer ring of the first-encountered sub-polygon whose
outer ring has the greatest vertex count. -/
def firstMaxOuterRing (polys : List (List LinearRing)) : LinearRing :=
  match polys.find? (fun p => (p.headD []).length == maxOuterCount polys) with
  | some p => p.headD []
  | none => []

/-- A committee entry of a legislator record: `{name, role?}`. -/
structure Committee where
  name : JsStr
  role : Option JsStr
deriving DecidableEq

/-- The `District` value of a legislator record or boundary feature: the
input JSON carries either an integer or a string. -/
inductive DistrictVal where
  | num (n : Int)
  | str (s : JsStr)
deriving DecidableEq

/-- Model of JS `String(x)` (and template-literal interpolation) on a
district value: integers print in decimal, strings pass through. -/
def jsString : DistrictVal → JsStr
  | .num n => (toString n).data
  | .str s => s

/-- A legislator record as consumed by the script; every field other than
`District` may be absent from the JSON. -/
structure LegRecord where
  District : DistrictVal
  Chamber : Option JsStr
  Name : Option JsStr
  Party : Option JsStr
  Counties : Option (List JsStr)
  Committees : Option (List Committee)
deriving DecidableEq

/-- A JS object used as a string-keyed dictionary of legislator records,
modelled by its lookup function. -/
abbrev JsObj := JsStr → Option LegRecord

/-- JS property assignment `obj[k] = v` on a dictionary. -/
def objSet (m : JsObj) (k : JsStr) (v : LegRecord) : JsObj :=
  fun q => if q = k then some v else m q

/-- The empty dictionary `{}`. -/
def emptyObj : JsObj := fun _ => none

/-- The index build of `src/main.js` lines 57-65: one pass over
`legislators`, writing each record into `senateLegMap` when
`leg.Chamber === 'Senate'`, into `houseLegMap` when
`leg.Chamber === 'House'`, and dropping it otherwise; the key is
`String(leg.District)`. -/
def indexStep (maps : JsObj × JsObj) (leg : LegRecord) : JsObj × JsObj :=
  if leg.Chamber = some (s2l "Senate") then
    (objSet maps.1 (jsString leg.District) leg, maps.2)
  else if leg.Chamber = some (s2l "House") then
    (maps.1, objSet maps.2 (jsString leg.District) leg)
  else maps

/-- The whole `legislators.forEach` loop, starting from two empty maps. -/
def buildIndex (legislators : List LegRecord) : JsObj × JsObj :=
  legislators.foldl indexStep (emptyObj, emptyObj)

/-- Spec-side description of the index contents: the last record of the
given chamber whose stringified district is the key (last-write-wins). -/
def lastWins (legislators : List LegRecord) (chamber : JsStr) (key : JsStr) :
    Option LegRecord :=
  legislators.reverse.find?
    (fun l => l.Chamber == some chamber && jsString l.District == key)

/-- The counties block of the popup (`src/main.js` lines 173-175):
a `<ul>` of the served counties when `leg?.Counties` is a non-empty
array, the literal `None listed` fallback otherwise. -/
def countiesHTML (cs : Option (List JsStr)) : JsStr :=
  match cs with
  | some (c :: rest) =>
    s2l "<b>Counties Served:</b><ul>"
      ++ (((c :: rest).map fun x => s2l "<li>" ++ x ++ s2l "</li>")).flatten
      ++ s2l "</ul>"
  | _ => s2l "<b>Counties Served:</b> <i>None listed</i>"

/-- One committee list item: `com.name` plus the parenthesized role when
`com.role` is truthy (`src/main.js` line 177). -/
def committeeItem (com : Committee) : JsStr :=
  s2l "<li>" ++ com.name
    ++ (match com.role with
        | some r => if r = [] then [] else s2l " (" ++ r ++ s2l ")"
        | none => [])
    ++ s2l "</li>"

/-- The committees block of the popup (`src/main.js` lines 176-178). -/
def committeesHTML (cs : Option (List Committee)) : JsStr :=
  match cs with
  | some (c :: rest) =>
    s2l "<b>Committees:</b><ul>" ++ (((c :: rest).map committeeItem)).flatten ++ s2l "</ul>"
  | _ => s2l "<b>Committees:</b> <i>None listed</i>"

/-- The popup template literal of `src/main.js` lines 179-184,
transcribed with its exact text, newlines and indentation. -/
def popupContent (district : DistrictVal) (leg : Option LegRecord)
    (dispName : JsStr) : JsStr :=
  s2l "\n                    <strong>District "
    ++ jsString district
    ++ s2l " &mdash; "
    ++ orStr (leg.bind LegRecord.Party) (s2l "Unknown Party")
    ++ s2l "</strong><br>\n                    <span style=\"font-size:1.1em; font-weight:bold;\">"
    ++ dispName
    ++ s2l "</span><br>\n                    "
    ++ countiesHTML (leg.bind LegRecord.Counties)
    ++ s2l "\n                    "
    ++ committeesHTML (leg.bind LegRecord.Committees)
    ++ s2l "\n                "

/-- The per-feature output of the district layer builder. -/
structure FeatureRender where
  fillColor : JsStr
  popup : JsStr
  label : Option JsStr

/-- The per-feature work of `addDistrictLayer` (`src/main.js` lines
150-199): look the feature's `District` up in the chamber's index by its
stringified value, derive the fill color from `leg?.Party`, build the
popup, and add a label marker carrying the reordered display name only
when `leg?.Name` is truthy. -/
def renderDistrictFeature (legMap : JsObj) (district : DistrictVal) :
    FeatureRender :=
  let leg := legMap (jsString district)
  let dispName := displayName (orStr (leg.bind LegRecord.Name) (s2l "Unknown"))
  { fillColor := partyColor (leg.bind LegRecord.Party)
    popup := popupContent district leg dispName
    label :=
      match leg with
      | some l =>
        match l.Name with
        | some nm => if nm = [] then none else some dispName
        | none => none
      | none => none }

/-- Whether `pat` occurs as a contiguous segment of `s`. -/
def containsSeq (pat : JsStr) : JsStr → Bool
  | [] => pat == []
  | c :: t => pat.isPrefixOf (c :: t) || containsSeq pat t

/-- The layers relevant to the county toggle: the county boundary layer,
the precomputed county label markers (indexed by their position in
`countyLabels`), and any other layer attached to the map (tiles, district
layers, district labels). -/
inductive LayerId where
  | county
  | countyLabel (i : Nat)
  | extra (i : Nat)
deriving DecidableEq

/-- A Leaflet map, abstracted to which layers are attached to it. -/
structure MapState where
  attached : LayerId → Bool

/-- The map with no layer attached. -/
def emptyMapState : MapState := ⟨fun _ => false⟩

/-- Model of `map.addLayer(l)` / `l.addTo(map)` (idempotent). -/
def jsAddLayer (m : MapState) (l : LayerId) : MapState :=
  ⟨fun x => if x = l then true else m.attached x⟩

/-- Model of `map.removeLayer(l)` (idempotent). -/
def jsRemoveLayer (m : MapState) (l : LayerId) : MapState :=
  ⟨fun x => if x = l then false else m.attached x⟩

/-- The `countyLabels` array: one precomputed label marker per county
feature. -/
def countyLabelIds (nLabels : Nat) : List LayerId :=
  (List.range nLabels).map LayerId.countyLabel

/-- The state of the `CountyToggleControl` closure (`src/main.js` lines
114-141): the `countiesVisible` boolean and the control's `innerHTML`. -/
structure ToggleControl where
  countiesVisible : Bool
  innerHTML : JsStr

/-- The control text while counties are hidden. -/
def showCountiesHTML : JsStr :=
  s2l "<span id=\"county-toggle-btn\">Show Counties</span>"

/-- The control text while counties are shown. -/
def hideCountiesHTML : JsStr :=
  s2l "<span id=\"county-toggle-btn\">Hide Counties</span>"

/-- The control as installed by `onAdd`: `countiesVisible = false` and the
`Show Counties` text. -/
def initialControl : ToggleControl := ⟨false, showCountiesHTML⟩

/-- The `container.onclick` handler of `CountyToggleControl`
(`src/main.js` lines 126-137): flip `countiesVisible`; when it becomes
true, add the county layer and every label marker and switch the text to
`Hide Counties`; otherwise remove them all and switch back. -/
def clickToggle (nLabels : Nat) (c : ToggleControl) (m : MapState) :
    ToggleControl × MapState :=
  let v := !c.countiesVisible
  if v then
    (⟨v, hideCountiesHTML⟩,
      (countyLabelIds nLabels).foldl jsAddLayer (jsAddLayer m .county))
  else
    (⟨v, showCountiesHTML⟩,
      (countyLabelIds nLabels).foldl jsRemoveLayer (jsRemoveLayer m .county))

/-- The toggle invariant relating the control's boolean to the map: all
county-toggle layers attached while visible, none attached while hidden.
It holds of the initial state and is preserved by every click. -/
def consistent (nLabels : Nat) (c : ToggleControl) (m : MapState) : Prop :=
  (c.countiesVisible = true →
    m.attached .county = true ∧ ∀ i < nLabels, m.attached (.countyLabel i) = true)
  ∧ (c.countiesVisible = false →
    m.attached .county = false ∧ ∀ i < nLabels, m.attached (.countyLabel i) = false)

/-- First-defined fallback on options, used to state how one index write
layers over earlier ones. -/
def fbk {α : Type} (a b : Option α) : Option α :=
  match a with
  | some v => some v
  | none => b

/-- A concrete Senate record used to instantiate the index theorems. -/
def sampleSenator : LegRecord :=
  ⟨.str (s2l "5"), some (s2l "Senate"), some (s2l "Smith, Jane"),
    some (s2l "Democrat"), none, none⟩

theorem foldl_sum_pair (l : List Coord) :
    ∀ a b : ℚ,
      l.foldl (fun (acc : ℚ × ℚ) c => (acc.1 + c.1, acc.2 + c.2)) (a, b) =
        (a + (l.map Prod.fst).sum, b + (l.map Prod.snd).sum) := by
  induction l with
  | nil => intro a b; simp
  | cons c t ih => intro a b; simp [ih, add_assoc]

theorem maxOuterCount_cons (p : List LinearRing) (ps : List (List LinearRing)) :
    maxOuterCount (p :: ps) = Nat.max (p.headD []).length (maxOuterCount ps) := rfl

theorem firstMaxOuterRing_cons (p : List LinearRing) (ps : List (List LinearRing)) :
    firstMaxOuterRing (p :: ps) =
      if maxOuterCount ps ≤ (p.headD []).length then p.headD []
      else firstMaxOuterRing ps := by
  by_cases h : maxOuterCount ps ≤ (p.headD []).length
  · have hm : maxOuterCount (p :: ps) = (p.headD []).length := by
      rw [maxOuterCount_cons]; exact Nat.max_eq_left h
    rw [if_pos h]
    unfold firstMaxOuterRing
    rw [hm, List.find?_cons_of_pos _ (by simp)]
  · have hm : maxOuterCount (p :: ps) = maxOuterCount ps := by
      rw [maxOuterCount_cons]; exact Nat.max_eq_right (Nat.le_of_not_le h)
    rw [if_neg h]
    unfold firstMaxOuterRing
    rw [hm, List.find?_cons_of_neg _ (by simp only [beq_iff_eq]; omega)]

theorem multiStep_eq (mxa : Nat) (cur : LinearRing) (p : List LinearRing) :
    multiStep (mxa, cur) p =
      if mxa < (p.headD []).length then ((p.headD []).length, p.headD [])
      else (mxa, cur) := rfl

theorem selectMulti_go (polys : List (List LinearRing)) :
    ∀ (mxa : Nat) (cur : LinearRing),
      (polys.foldl multiStep (mxa, cur)).2 =
        if maxOuterCount polys ≤ mxa then cur else firstMaxOuterRing polys := by
  induction polys with
  | nil => intro mxa cur; simp [maxOuterCount]
  | cons p ps ih =>
    intro mxa cur
    rw [List.foldl_cons]
    by_cases hc : mxa < (p.headD []).length
    · rw [multiStep_eq, if_pos hc, ih]
      have h1 : ¬ maxOuterCount (p :: ps) ≤ mxa := by
        have h2 : (p.headD []).length ≤ maxOuterCount (p :: ps) := by
          rw [maxOuterCount_cons]; exact Nat.le_max_left _ _
        omega
      rw [if_neg h1, firstMaxOuterRing_cons]
    · rw [multiStep_eq, if_neg hc, ih]
      have hple : (p.headD []).length ≤ mxa := Nat.le_of_not_lt hc
      by_cases h2 : maxOuterCount ps ≤ mxa
      · have h3 : maxOuterCount (p :: ps) ≤ mxa := by
          rw [maxOuterCount_cons]; exact Nat.max_le.mpr ⟨hple, h2⟩
        rw [if_pos h2, if_pos h3]
      · have h3 : ¬ maxOuterCount (p :: ps) ≤ mxa := by
          rw [maxOuterCount_cons]
          intro hh
          exact h2 (le_trans (Nat.le_max_right _ _) hh)
        rw [if_neg h2, if_neg h3, firstMaxOuterRing_cons, if_neg (by omega)]

theorem firstMax_of_maxOuterCount_zero (polys : List (List LinearRing))
    (h : maxOuterCount polys = 0) : firstMaxOuterRing polys = [] := by
  cases polys with
  | nil => rfl
  | cons p ps =>
    rw [maxOuterCount_cons] at h
    obtain ⟨hp, hps⟩ := Nat.max_eq_zero_iff.mp h
    rw [firstMaxOuterRing_cons, if_pos (by omega)]
    exact List.length_eq_zero.mp hp

theorem selectMultiCoords_eq_firstMax (polys : List (List LinearRing)) :
    selectMultiCoords polys = firstMaxOuterRing polys := by
  unfold selectMultiCoords
  rw [selectMulti_go]
  by_cases h0 : maxOuterCount polys ≤ 0
  · rw [if_pos h0]
    exact (firstMax_of_maxOuterCount_zero polys (Nat.le_zero.mp h0)).symm
  · rw [if_neg h0]

theorem fbk_assoc {α : Type} (a b c : Option α) :
    fbk (fbk a b) c = fbk a (fbk b c) := by
  cases a <;> rfl

theorem fbk_none_right {α : Type} (a : Option α) : fbk a none = a := by
  cases a <;> rfl

theorem find?_append_fbk {α : Type} (l₁ l₂ : List α) (p : α → Bool) :
    (l₁ ++ l₂).find? p = fbk (l₁.find? p) (l₂.find? p) := by
  induction l₁ with
  | nil => rfl
  | cons a t ih =>
    by_cases h : p a = true
    · rw [List.cons_append, List.find?_cons_of_pos _ h, List.find?_cons_of_pos _ h]
      rfl
    · rw [List.cons_append, List.find?_cons_of_neg _ (by simp [h]),
        List.find?_cons_of_neg _ (by simp [h]), ih]

/-- The record-level predicate of `lastWins`. -/
def chamberKeyHit (chamber key : JsStr) (l : LegRecord) : Bool :=
  l.Chamber == some chamber && jsString l.District == key

theorem lastWins_eq_find? (legs : List LegRecord) (chamber key : JsStr) :
    lastWins legs chamber key = legs.reverse.find? (chamberKeyHit chamber key) := rfl

theorem find?_singleton_fbk {α : Type} (a : α) (p : α → Bool) :
    [a].find? p = if p a then some a else none := by
  by_cases h : p a = true
  · rw [List.find?_cons_of_pos _ h, if_pos h]
  · rw [List.find?_cons_of_neg _ (by simp [h]), if_neg (by simp [h])]
    rfl

theorem lastWins_cons (l : LegRecord) (legs : List LegRecord) (chamber key : JsStr) :
    lastWins (l :: legs) chamber key =
      fbk (lastWins legs chamber key)
        (if chamberKeyHit chamber key l then some l else none) := by
  rw [lastWins_eq_find?, List.reverse_cons, find?_append_fbk, ← lastWins_eq_find?,
    find?_singleton_fbk]

theorem indexStep_fst (m : JsObj × JsObj) (l : LegRecord) (k : JsStr) :
    (indexStep m l).1 k =
      fbk (if chamberKeyHit (s2l "Senate") k l then some l else none) (m.1 k) := by
  by_cases hs : l.Chamber = some (s2l "Senate")
  · rw [indexStep, if_pos hs]
    by_cases hk : k = jsString l.District
    · simp [objSet, hk, chamberKeyHit, hs, fbk]
    · simp [objSet, hk, chamberKeyHit, hs, fbk, Ne.symm hk]
  · have hhit : chamberKeyHit (s2l "Senate") k l = false := by
      simp [chamberKeyHit, hs]
    rw [hhit]
    by_cases hh : l.Chamber = some (s2l "House")
    · rw [indexStep, if_neg hs, if_pos hh]
      rfl
    · rw [indexStep, if_neg hs, if_neg hh]
      rfl

theorem indexStep_snd (m : JsObj × JsObj) (l : LegRecord) (k : JsStr) :
    (indexStep m l).2 k =
      fbk (if chamberKeyHit (s2l "House") k l then some l else none) (m.2 k) := by
  by_cases hh : l.Chamber = some (s2l "House")
  · have hs : ¬ l.Chamber = some (s2l "Senate") := by
      rw [hh]; intro hcon; exact absurd (Option.some.inj hcon) (by decide)
    rw [indexStep, if_neg hs, if_pos hh]
    by_cases hk : k = jsString l.District
    · simp [objSet, hk, chamberKeyHit, hh, fbk]
    · simp [objSet, hk, chamberKeyHit, hh, fbk, Ne.symm hk]
  · have hhit : chamberKeyHit (s2l "House") k l = false := by
      simp [chamberKeyHit, hh]
    rw [hhit]
    by_cases hs : l.Chamber = some (s2l "Senate")
    · rw [indexStep, if_pos hs]
      rfl
    · rw [indexStep, if_neg hs, if_neg hh]
      rfl

theorem index_go_fst (legs : List LegRecord) :
    ∀ (m : JsObj × JsObj) (k : JsStr),
      (legs.foldl indexStep m).1 k =
        fbk (lastWins legs (s2l "Senate") k) (m.1 k) := by
  induction legs with
  | nil => intro m k; rfl
  | cons l legs ih =>
    intro m k
    rw [List.foldl_cons, ih, indexStep_fst, lastWins_cons, fbk_assoc]

theorem index_go_snd (legs : List LegRecord) :
    ∀ (m : JsObj × JsObj) (k : JsStr),
      (legs.foldl indexStep m).2 k =
        fbk (lastWins legs (s2l "House") k) (m.2 k) := by
  induction legs with
  | nil => intro m k; rfl
  | cons l legs ih =>
    intro m k
    rw [List.foldl_cons, ih, indexStep_snd, lastWins_cons, fbk_assoc]

theorem buildIndex_fst (legs : List LegRecord) (k : JsStr) :
    (buildIndex legs).1 k = lastWins legs (s2l "Senate") k := by
  rw [buildIndex, index_go_fst]
  exact fbk_none_right _

theorem buildIndex_snd (legs : List LegRecord) (k : JsStr) :
    (buildIndex legs).2 k = lastWins legs (s2l "House") k := by
  rw [buildIndex, index_go_snd]
  exact fbk_none_right _

theorem containsSeq_cons (pat : JsStr) (c : Char) (t : JsStr) :
    containsSeq pat (c :: t) = (pat.isPrefixOf (c :: t) || containsSeq pat t) := rfl

theorem isPrefixOf_append_self (p t : List Char) :
    p.isPrefixOf (p ++ t) = true := by
  induction p with
  | nil => simp
  | cons a p' ih => simp [List.isPrefixOf_cons₂, ih]

theorem containsSeq_of_here (pat b : JsStr) : containsSeq pat (pat ++ b) = true := by
  cases h : pat ++ b with
  | nil =>
    have hp : pat = [] := (List.append_eq_nil.mp h).1
    rw [hp]
    rfl
  | cons c t =>
    rw [containsSeq_cons, ← h, isPrefixOf_append_self, Bool.true_or]

theorem containsSeq_append_right (pat x y : JsStr) (h : containsSeq pat y = true) :
    containsSeq pat (x ++ y) = true := by
  induction x with
  | nil => exact h
  | cons c t ih =>
    rw [List.cons_append, containsSeq_cons, ih, Bool.or_true]

theorem dem_not_rep {p : JsStr} (h : (s2l "dem").isPrefixOf p = true) :
    (s2l "rep").isPrefixOf p = false := by
  cases p with
  | nil => exact absurd h (by decide)
  | cons c t =>
    have hc : c = 'd' := by
      have h' := h
      rw [show s2l "dem" = 'd' :: s2l "em" from rfl, List.isPrefixOf_cons₂] at h'
      simp only [Bool.and_eq_true, beq_iff_eq] at h'
      exact h'.1.symm
    rw [hc, show s2l "rep" = 'r' :: s2l "ep" from rfl, List.isPrefixOf_cons₂]
    simp

theorem splitOnChar_ne_nil (c : Char) (s : JsStr) : splitOnChar c s ≠ [] := by
  cases s with
  | nil => exact List.cons_ne_nil _ _
  | cons ch rest =>
    rw [splitOnChar]
    by_cases h : ch = c
    · rw [if_pos h]; exact List.cons_ne_nil _ _
    · rw [if_neg h]; exact List.cons_ne_nil _ _

theorem includesChar_false_cons {c x : Char} {t : JsStr}
    (h : includesChar c (x :: t) = false) :
    ¬ x = c ∧ includesChar c t = false := by
  simp only [includesChar, List.contains_cons, Bool.or_eq_false_iff] at h
  obtain ⟨h1, h2⟩ := h
  refine ⟨?_, h2⟩
  intro hxc
  rw [hxc] at h1
  simp at h1

theorem splitOnChar_append (c : Char) (a b : JsStr)
    (ha : includesChar c a = false) :
    splitOnChar c (a ++ c :: b) = a :: splitOnChar c b := by
  induction a with
  | nil =>
    rw [List.nil_append, splitOnChar, if_pos rfl]
  | cons x t ih =>
    obtain ⟨hx, ht⟩ := includesChar_false_cons ha
    rw [List.cons_append, splitOnChar, if_neg hx, ih ht]
    simp

theorem foldl_add_attached (ls : List LayerId) :
    ∀ (m : MapState) (x : LayerId),
      (ls.foldl jsAddLayer m).attached x =
        if x ∈ ls then true else m.attached x := by
  induction ls with
  | nil => intro m x; simp
  | cons l t ih =>
    intro m x
    rw [List.foldl_cons, ih]
    by_cases hx : x ∈ t
    · simp [hx, List.mem_cons]
    · by_cases hxl : x = l
      · simp [hx, hxl, jsAddLayer]
      · simp [hx, hxl, jsAddLayer, List.mem_cons]

theorem foldl_remove_attached (ls : List LayerId) :
    ∀ (m : MapState) (x : LayerId),
      (ls.foldl jsRemoveLayer m).attached x =
        if x ∈ ls then false else m.attached x := by
  induction ls with
  | nil => intro m x; simp
  | cons l t ih =>
    intro m x
    rw [List.foldl_cons, ih]
    by_cases hx : x ∈ t
    · simp [hx, List.mem_cons]
    · by_cases hxl : x = l
      · simp [hx, hxl, jsRemoveLayer]
      · simp [hx, hxl, jsRemoveLayer, List.mem_cons]

theorem mem_countyLabelIds {x : LayerId} {n : Nat} :
    x ∈ countyLabelIds n ↔ ∃ i, i < n ∧ x = LayerId.countyLabel i := by
  constructor
  · intro hx
    obtain ⟨i, hi, hx⟩ := List.mem_map.mp hx
    exact ⟨i, List.mem_range.mp hi, hx.symm⟩
  · rintro ⟨i, hi, rfl⟩
    exact List.mem_map.mpr ⟨i, List.mem_range.mpr hi, rfl⟩

theorem countyLabel_mem_countyLabelIds {i n : Nat} :
    LayerId.countyLabel i ∈ countyLabelIds n ↔ i < n := by
  rw [mem_countyLabelIds]
  constructor
  · rintro ⟨j, hj, hij⟩
    cases hij
    exact hj
  · intro hi
    exact ⟨i, hi, rfl⟩

theorem county_not_mem_countyLabelIds {n : Nat} :
    LayerId.county ∉ countyLabelIds n := by
  rw [mem_countyLabelIds]
  rintro ⟨i, _, hcon⟩
  cases hcon

theorem clickToggle_of_hidden (n : Nat) (c : ToggleControl) (m : MapState)
    (h : c.countiesVisible = false) :
    clickToggle n c m =
      (⟨true, hideCountiesHTML⟩,
        (countyLabelIds n).foldl jsAddLayer (jsAddLayer m .county)) := by
  rw [clickToggle, h]
  rfl

theorem clickToggle_of_visible (n : Nat) (c : ToggleControl) (m : MapState)
    (h : c.countiesVisible = true) :
    clickToggle n c m =
      (⟨false, showCountiesHTML⟩,
        (countyLabelIds n).foldl jsRemoveLayer (jsRemoveLayer m .county)) := by
  rw [clickToggle, h]
  rfl

theorem clickToggle_hidden_attached (n : Nat) (c : ToggleControl) (m : MapState)
    (h : c.countiesVisible = false) (x : LayerId) :
    ((clickToggle n c m).2).attached x =
      if x ∈ countyLabelIds n then true
      else if x = .county then true
      else m.attached x := by
  rw [clickToggle_of_hidden n c m h]
  dsimp only
  rw [foldl_add_attached]
  by_cases h1 : x ∈ countyLabelIds n
  · rw [if_pos h1, if_pos h1]
  · rw [if_neg h1, if_neg h1, jsAddLayer]

theorem clickToggle_visible_attached (n : Nat) (c : ToggleControl) (m : MapState)
    (h : c.countiesVisible = true) (x : LayerId) :
    ((clickToggle n c m).2).attached x =
      if x ∈ countyLabelIds n then false
      else if x = .county then false
      else m.attached x := by
  rw [clickToggle_of_visible n c m h]
  dsimp only
  rw [foldl_remove_attached]
  by_cases h1 : x ∈ countyLabelIds n
  · rw [if_pos h1, if_pos h1]
  · rw [if_neg h1, if_neg h1, jsRemoveLayer]

/-- Claim C1: for every geometry of kind Polygon, the centroid is the
arithmetic mean of the outer (first) ring's vertices with the coordinate
pair reversed from the GeoJSON input order: with vertices given as
`(lng, lat)`, the result is `(mean of lats, mean of lngs)`; the hole
rings are ignored. -/
theorem polygon_centroid_vertex_mean (r : LinearRing) (holes : List LinearRing)
    (_hr : r ≠ []) :
    getPolygonCentroid (Geometry.polygon (r :: holes)) =
      some ((r.map Prod.snd).sum / (r.length : ℚ),
        (r.map Prod.fst).sum / (r.length : ℚ)) := by
  simp only [getPolygonCentroid, List.headD_cons, centroidOfRing]
  rw [foldl_sum_pair]
  simp

/-- The spec's test instance for C1: the ring `[[0,0],[2,0],[2,2],[0,2]]`
(lng,lat) yields the centroid `(1,1)` (lat,lng). -/
theorem polygon_centroid_vertex_mean_witness :
    getPolygonCentroid (Geometry.polygon [[((0 : ℚ), (0 : ℚ)), (2, 0), (2, 2), (0, 2)]]) =
      some (1, 1) := by
  rw [polygon_centroid_vertex_mean [((0 : ℚ), (0 : ℚ)), (2, 0), (2, 2), (0, 2)] []
    (by decide)]
  norm_num

/-- Claim C2: for every geometry of kind MultiPolygon, the centroid uses
the outer ring of the single sub-polygon whose outer ring has the
greatest vertex count (the selection loop agrees everywhere with the
spec-side first-encountered argmax `firstMaxOuterRing`, so ties go to the
first-encountered sub-polygon), regardless of area: in the third conjunct
a 5-vertex ring of tiny area beats a 4-vertex ring of large area, and in
the fourth a tie on vertex count selects the first sub-polygon. -/
theorem multiPolygon_picks_first_max_ring :
    (∀ polys, selectMultiCoords polys = firstMaxOuterRing polys)
    ∧ (∀ polys, getPolygonCentroid (Geometry.multiPolygon polys) =
        some (centroidOfRing (firstMaxOuterRing polys)))
    ∧ selectMultiCoords
        [[[((0 : ℚ), (0 : ℚ)), (10, 0), (10, 10), (0, 10)]],
         [[(0, 0), (1, 0), (1, 1), (0, 1), (0, 0)]]] =
        [(0, 0), (1, 0), (1, 1), (0, 1), (0, 0)]
    ∧ selectMultiCoords
        [[[((0 : ℚ), (0 : ℚ)), (1, 0), (1, 1)]], [[(5, 5), (6, 5), (6, 6)]]] =
        [(0, 0), (1, 0), (1, 1)] := by
  refine ⟨selectMultiCoords_eq_firstMax, ?_, by decide, by decide⟩
  intro polys
  simp only [getPolygonCentroid]
  rw [selectMultiCoords_eq_firstMax]

/-- Claim C10: for every geometry whose kind is neither Polygon nor
MultiPolygon, the centroid is `null` (`none`). -/
theorem nonPolygon_centroid_null (g : Geometry)
    (hp : ∀ cs, g ≠ Geometry.polygon cs)
    (hm : ∀ ps, g ≠ Geometry.multiPolygon ps) :
    getPolygonCentroid g = none := by
  cases g with
  | polygon cs => exact absurd rfl (hp cs)
  | multiPolygon ps => exact absurd rfl (hm ps)
  | other s => rfl

/-- Instance of C10 at a Point geometry. -/
theorem nonPolygon_centroid_null_witness :
    getPolygonCentroid (Geometry.other (s2l "Point")) = none :=
  nonPolygon_centroid_null _ (fun _ h => Geometry.noConfusion h)
    (fun _ h => Geometry.noConfusion h)

/-- Claim C3: the index keys each record by the stringified `District`
value (so the integer `5` and the string `"5"` collide on the key `"5"`),
and on duplicate keys within a chamber the record processed last is the
one stored: both maps agree everywhere with the last-write-wins
description `lastWins`, and on the spec's two-record example the key
`"5"` holds exactly the record processed last. -/
theorem buildIndex_string_key_last_wins :
    (∀ legs k, (buildIndex legs).1 k = lastWins legs (s2l "Senate") k)
    ∧ (∀ legs k, (buildIndex legs).2 k = lastWins legs (s2l "House") k)
    ∧ jsString (.num 5) = jsString (.str (s2l "5"))
    ∧ (buildIndex
        [⟨.num 5, some (s2l "Senate"), none, some (s2l "Democrat"), none, none⟩,
         ⟨.str (s2l "5"), some (s2l "Senate"), none, some (s2l "Republican"), none, none⟩]).1
        (s2l "5") =
      some ⟨.str (s2l "5"), some (s2l "Senate"), none, some (s2l "Republican"), none, none⟩ := by
  exact ⟨buildIndex_fst, buildIndex_snd, by decide, by decide⟩

/-- Claim C8: a record whose `Chamber` is not exactly `"Senate"` and not
exactly `"House"` ends up in neither map (everything stored in the Senate
map has `Chamber = "Senate"` and everything in the House map has
`Chamber = "House"`), and a record with `Chamber` exactly `"Senate"`
(resp. `"House"`) goes into the corresponding map under its stringified
district key. -/
theorem buildIndex_chamber_partition :
    (∀ legs k v, (buildIndex legs).1 k = some v → v.Chamber = some (s2l "Senate"))
    ∧ (∀ legs k v, (buildIndex legs).2 k = some v → v.Chamber = some (s2l "House"))
    ∧ (∀ legs (leg : LegRecord), leg.Chamber = some (s2l "Senate") →
        (buildIndex (legs ++ [leg])).1 (jsString leg.District) = some leg)
    ∧ (∀ legs (leg : LegRecord), leg.Chamber = some (s2l "House") →
        (buildIndex (legs ++ [leg])).2 (jsString leg.District) = some leg) := by
  refine ⟨?_, ?_, ?_, ?_⟩
  · intro legs k v h
    rw [buildIndex_fst, lastWins_eq_find?] at h
    have hp := List.find?_some h
    simp only [chamberKeyHit, Bool.and_eq_true, beq_iff_eq] at hp
    exact hp.1
  · intro legs k v h
    rw [buildIndex_snd, lastWins_eq_find?] at h
    have hp := List.find?_some h
    simp only [chamberKeyHit, Bool.and_eq_true, beq_iff_eq] at hp
    exact hp.1
  · intro legs leg hch
    rw [buildIndex, List.foldl_append, List.foldl_cons, List.foldl_nil,
      indexStep, if_pos hch]
    simp [objSet]
  · intro legs leg hch
    have hs : ¬ leg.Chamber = some (s2l "Senate") := by
      rw [hch]
      intro hcon
      exact absurd (Option.some.inj hcon) (by decide)
    rw [buildIndex, List.foldl_append, List.foldl_cons, List.foldl_nil,
      indexStep, if_neg hs, if_pos hch]
    simp [objSet]

/-- Instances of C8: the sample Senate record lands in the Senate map
under its key, and anything retrieved from the Senate map carries the
`Senate` chamber. -/
theorem buildIndex_chamber_partition_witness :
    (buildIndex ([] ++ [sampleSenator])).1 (jsString sampleSenator.District) =
      some sampleSenator
    ∧ sampleSenator.Chamber = some (s2l "Senate") :=
  ⟨buildIndex_chamber_partition.2.2.1 [] sampleSenator rfl,
   buildIndex_chamber_partition.1 [sampleSenator] (s2l "5") sampleSenator (by decide)⟩

/-- Claim C4: `partyColor` partitions three ways by case-insensitive
prefix: an absent or empty party yields the neutral light yellow, a party
whose lowercase form starts with `"rep"` yields the red tone, one
starting with `"dem"` the blue tone, and every other string the neutral
tone; `"Republican"`, `"REP"` and `"rep."` all yield the same red tone,
`"Independent"` and a whitespace-only party the neutral one. -/
theorem partyColor_partition :
    partyColor none = s2l "#fff59d"
    ∧ partyColor (some []) = s2l "#fff59d"
    ∧ (∀ s, startsWithJS (toLowerJS s) (s2l "rep") = true →
        partyColor (some s) = s2l "#ff9999")
    ∧ (∀ s, startsWithJS (toLowerJS s) (s2l "dem") = true →
        partyColor (some s) = s2l "#90caf9")
    ∧ (∀ s, startsWithJS (toLowerJS s) (s2l "rep") = false →
        startsWithJS (toLowerJS s) (s2l "dem") = false →
        partyColor (some s) = s2l "#fff59d")
    ∧ partyColor (some (s2l "Republican")) = s2l "#ff9999"
    ∧ partyColor (some (s2l "REP")) = s2l "#ff9999"
    ∧ partyColor (some (s2l "rep.")) = s2l "#ff9999"
    ∧ partyColor (some (s2l "Independent")) = s2l "#fff59d"
    ∧ partyColor (some (s2l "   ")) = s2l "#fff59d" := by
  refine ⟨rfl, rfl, ?_, ?_, ?_, by decide, by decide, by decide, by decide, by decide⟩
  · intro s h
    have hs : ¬ s = [] := by
      rintro rfl
      exact absurd h (by decide)
    rw [partyColor, if_neg hs]
    simp only [h, if_true]
  · intro s h
    have hs : ¬ s = [] := by
      rintro rfl
      exact absurd h (by decide)
    have hrep : startsWithJS (toLowerJS s) (s2l "rep") = false := dem_not_rep h
    rw [partyColor, if_neg hs]
    simp only [hrep, h, Bool.false_eq_true, if_false, if_true]
  · intro s h1 h2
    by_cases hs : s = []
    · rw [hs]; rfl
    · rw [partyColor, if_neg hs]
      simp only [h1, h2, Bool.false_eq_true, if_false]

/-- Instances of C4 through its prefix clauses: two more spellings hit
the red and blue tones, and a third-party string the neutral tone. -/
theorem partyColor_partition_witness :
    partyColor (some (s2l "REPUBLICAN")) = s2l "#ff9999"
    ∧ partyColor (some (s2l "Democratic")) = s2l "#90caf9"
    ∧ partyColor (some (s2l "Unaffiliated")) = s2l "#fff59d" :=
  ⟨partyColor_partition.2.2.1 _ (by decide),
   partyColor_partition.2.2.2.1 _ (by decide),
   partyColor_partition.2.2.2.2.1 _ (by decide) (by decide)⟩

/-- Claim C5: a name without a comma passes through `displayName`
unchanged; a name of the form `a ++ "," ++ b` with `a` comma-free becomes
the trimmed first comma-segment of `b`, a space, and the trimmed `a` —
so every segment after the second is discarded; `"Smith, Jane"` becomes
`"Jane Smith"`, `"Jane Smith"` is unchanged, and the multi-comma
`"Smith, Jane, Jr."` also becomes `"Jane Smith"`. -/
theorem displayName_comma_reorder :
    (∀ name : JsStr, includesChar ',' name = false → displayName name = name)
    ∧ (∀ a b : JsStr, includesChar ',' a = false →
        displayName (a ++ ',' :: b) =
          trimJS ((splitOnChar ',' b).headD []) ++ s2l " " ++ trimJS a)
    ∧ displayName (s2l "Smith, Jane") = s2l "Jane Smith"
    ∧ displayName (s2l "Jane Smith") = s2l "Jane Smith"
    ∧ displayName (s2l "Smith, Jane, Jr.") = s2l "Jane Smith" := by
  refine ⟨?_, ?_, by decide, by decide, by decide⟩
  · intro name h
    rw [displayName, h]
    rfl
  · intro a b ha
    have hinc : includesChar ',' (a ++ ',' :: b) = true := by
      simp [includesChar]
    rw [displayName, hinc, if_pos rfl, splitOnChar_append ',' a b ha]
    obtain ⟨p0, ps, hsplit⟩ := List.exists_cons_of_ne_nil (splitOnChar_ne_nil ',' b)
    rw [hsplit]
    simp

/-- Instances of C5 through its two general clauses: a comma-free name is
unchanged, and a one-comma name is reordered with trimming. -/
theorem displayName_comma_reorder_witness :
    displayName (s2l "Jane Smith") = s2l "Jane Smith"
    ∧ displayName (s2l "Smith" ++ ',' :: s2l " Jane") =
        trimJS ((splitOnChar ',' (s2l " Jane")).headD []) ++ s2l " " ++ trimJS (s2l "Smith") :=
  ⟨displayName_comma_reorder.1 _ (by decide),
   displayName_comma_reorder.2.1 (s2l "Smith") (s2l " Jane") (by decide)⟩

/-- Claim C6: for a boundary feature whose stringified `District` has no
entry in the legislator index, the district layer builder produces the
neutral fill color, a popup containing `Unknown` for the name and
`Unknown Party` for the party, and adds no label marker. -/
theorem districtFeature_miss_fallback (legMap : JsObj) (district : DistrictVal)
    (h : legMap (jsString district) = none) :
    (renderDistrictFeature legMap district).fillColor = s2l "#fff59d"
    ∧ containsSeq (s2l "Unknown") (renderDistrictFeature legMap district).popup = true
    ∧ containsSeq (s2l "Unknown Party") (renderDistrictFeature legMap district).popup = true
    ∧ (renderDistrictFeature legMap district).label = none := by
  refine ⟨?_, ?_, ?_, ?_⟩
  · simp only [renderDistrictFeature, h]
    rfl
  · simp only [renderDistrictFeature, h, popupContent, List.append_assoc]
    apply containsSeq_append_right
    apply containsSeq_append_right
    decide
  · simp only [renderDistrictFeature, h, popupContent, List.append_assoc]
    apply containsSeq_append_right
    apply containsSeq_append_right
    decide
  · simp only [renderDistrictFeature, h]

/-- Instance of C6 at an empty index and district 99. -/
theorem districtFeature_miss_fallback_witness :
    (renderDistrictFeature emptyObj (.str (s2l "99"))).fillColor = s2l "#fff59d"
    ∧ containsSeq (s2l "Unknown")
        (renderDistrictFeature emptyObj (.str (s2l "99"))).popup = true
    ∧ containsSeq (s2l "Unknown Party")
        (renderDistrictFeature emptyObj (.str (s2l "99"))).popup = true
    ∧ (renderDistrictFeature emptyObj (.str (s2l "99"))).label = none :=
  districtFeature_miss_fallback emptyObj (.str (s2l "99")) rfl

/-- Claim C7: the county label marker's anchor equals the centroid result
whenever it is non-null, and equals the feature's bounding-box center
when the centroid computation returns null; the same line appears
verbatim in every variant of the overlay builder, and the selection is
total, so the fallback never errors. -/
theorem countyLabel_anchor_fallback (g : Geometry) (bc : ℚ × ℚ) :
    (∀ c, getPolygonCentroid g = some c → countyLabelAnchor g bc = c)
    ∧ (getPolygonCentroid g = none → countyLabelAnchor g bc = bc) := by
  constructor
  · intro c hc
    rw [countyLabelAnchor, hc]
  · intro hn
    rw [countyLabelAnchor, hn]

/-- Instances of C7: the fallback fires on a Point geometry, and a
concrete square's label is anchored at its vertex centroid. -/
theorem countyLabel_anchor_fallback_witness :
    countyLabelAnchor (Geometry.other (s2l "Point")) (39, -105) = (39, -105)
    ∧ countyLabelAnchor
        (Geometry.polygon [[((0 : ℚ), (0 : ℚ)), (2, 0), (2, 2), (0, 2)]]) (39, -105) =
        (1, 1) :=
  ⟨(countyLabel_anchor_fallback _ _).2 rfl,
   (countyLabel_anchor_fallback _ _).1 (1, 1)
     (by norm_num [getPolygonCentroid, centroidOfRing])⟩

/-- Claim C9: from every consistent starting state of the county toggle,
activating it twice returns the map to its original attached-layer set
and the control to its original boolean; one activation from the hidden
state attaches the county layer plus every precomputed label marker and
switches the text to `Hide Counties`, and the next activation switches it
back to `Show Counties`; after any activation the text is one of exactly
those two; and every activation preserves consistency, so the hypothesis
covers every state the program can reach from its initial one. -/
theorem countyToggle_round_trip (n : Nat) (c : ToggleControl) (m : MapState)
    (h : consistent n c m) :
    (∀ x, ((clickToggle n (clickToggle n c m).1 (clickToggle n c m).2).2).attached x =
        m.attached x)
    ∧ (clickToggle n (clickToggle n c m).1 (clickToggle n c m).2).1.countiesVisible =
        c.countiesVisible
    ∧ (c.countiesVisible = false →
        ((clickToggle n c m).2.attached .county = true
        ∧ (∀ i, i < n → (clickToggle n c m).2.attached (.countyLabel i) = true)
        ∧ (clickToggle n c m).1.innerHTML = hideCountiesHTML
        ∧ (clickToggle n (clickToggle n c m).1 (clickToggle n c m).2).1.innerHTML =
            showCountiesHTML))
    ∧ ((clickToggle n c m).1.innerHTML = hideCountiesHTML
        ∨ (clickToggle n c m).1.innerHTML = showCountiesHTML)
    ∧ consistent n (clickToggle n c m).1 (clickToggle n c m).2 := by
  cases hv : c.countiesVisible with
  | false =>
    have h1fst : (clickToggle n c m).1 = ⟨true, hideCountiesHTML⟩ := by
      rw [clickToggle_of_hidden n c m hv]
    have h1att := clickToggle_hidden_attached n c m hv
    have h2att := clickToggle_visible_attached n (clickToggle n c m).1
      (clickToggle n c m).2 (by rw [h1fst])
    have h2fst : (clickToggle n (clickToggle n c m).1 (clickToggle n c m).2).1 =
        ⟨false, showCountiesHTML⟩ := by
      rw [clickToggle_of_visible n _ _ (by rw [h1fst])]
    obtain ⟨hmc, hml⟩ := h.2 hv
    refine ⟨?_, ?_, ?_, ?_, ?_⟩
    · intro x
      rw [h2att x, h1att x]
      by_cases hx : x ∈ countyLabelIds n
      · obtain ⟨i, hi, rfl⟩ := mem_countyLabelIds.mp hx
        simp [hx, (hml i hi).symm]
      · by_cases hxc : x = LayerId.county
        · subst hxc
          simp [hx, hmc.symm]
        · simp [hx, hxc]
    · rw [h2fst]
    · intro _
      refine ⟨?_, ?_, ?_, ?_⟩
      · rw [h1att]
        simp [county_not_mem_countyLabelIds]
      · intro i hi
        rw [h1att]
        simp [countyLabel_mem_countyLabelIds.mpr hi]
      · rw [h1fst]
      · rw [h2fst]
    · exact Or.inl (by rw [h1fst])
    · refine ⟨fun _ => ⟨?_, ?_⟩, fun hcon => ?_⟩
      · rw [h1att]
        simp [county_not_mem_countyLabelIds]
      · intro i hi
        rw [h1att]
        simp [countyLabel_mem_countyLabelIds.mpr hi]
      · rw [h1fst] at hcon
        simp at hcon
  | true =>
    have h1fst : (clickToggle n c m).1 = ⟨false, showCountiesHTML⟩ := by
      rw [clickToggle_of_visible n c m hv]
    have h1att := clickToggle_visible_attached n c m hv
    have h2att := clickToggle_hidden_attached n (clickToggle n c m).1
      (clickToggle n c m).2 (by rw [h1fst])
    have h2fst : (clickToggle n (clickToggle n c m).1 (clickToggle n c m).2).1 =
        ⟨true, hideCountiesHTML⟩ := by
      rw [clickToggle_of_hidden n _ _ (by rw [h1fst])]
    obtain ⟨hmc, hml⟩ := h.1 hv
    refine ⟨?_, ?_, ?_, ?_, ?_⟩
    · intro x
      rw [h2att x, h1att x]
      by_cases hx : x ∈ countyLabelIds n
      · obtain ⟨i, hi, rfl⟩ := mem_countyLabelIds.mp hx
        simp [hx, (hml i hi).symm]
      · by_cases hxc : x = LayerId.county
        · subst hxc
          simp [hx, hmc.symm]
        · simp [hx, hxc]
    · rw [h2fst]
    · intro hfalse
      simp at hfalse
    · exact Or.inr (by rw [h1fst])
    · refine ⟨fun hcon => ?_, fun _ => ⟨?_, ?_⟩⟩
      · rw [h1fst] at hcon
        simp at hcon
      · rw [h1att]
        simp [county_not_mem_countyLabelIds]
      · intro i hi
        rw [h1att]
        simp [countyLabel_mem_countyLabelIds.mpr hi]

/-- Instance of C9 at the initial program state: after two activations
the county layer is detached again, exactly as at start. -/
theorem countyToggle_round_trip_witness :
    ((clickToggle 2 (clickToggle 2 initialControl emptyMapState).1
        (clickToggle 2 initialControl emptyMapState).2).2).attached .county =
      emptyMapState.attached .county :=
  (countyToggle_round_trip 2 initialControl emptyMapState
    ⟨fun hcon => by simp [initialControl] at hcon,
     fun _ => ⟨rfl, fun _ _ => rfl⟩⟩).1 .county

end CoLeg
